import Mathlib

/-!
Verification development for the expression evaluator of a small
JavaScript-like interpreter (`src/lib/exec.rs`).

The evaluator is embedded shallowly: the AST (`Expr`), the value model
(`Value`), the state (environment frames plus a heap of objects and
callables) and the recursive `run` function mirror the Rust source.
Recursion through user-defined function bodies is unbounded in the source,
so `run` takes a fuel parameter; exhausting fuel yields the distinguished
`RRes.timeout` outcome, a Rust `panic!` is modelled by `RRes.crash`, and a
thrown JavaScript value by `RRes.thrown`.

Collaborator modules of the source repository (the value representation
`js/value.rs`, the lexical environment, and the builtin initializers) are
not part of the given source tree; where their behaviour decides a claim
they are modelled from the specification and marked as such in doc
comments.
-/

namespace Boa

/-- Values of the interpreter, mirroring `ValueData` in `js/value.rs`.
Modelled from the spec: the value enum is
{Undefined, Null, Boolean, Number(double), Integer(32-bit), String,
Object, Function}. Objects and callables are garbage-collected shared
structures in the source; the shallow embedding stores them in a heap
inside `State` and a value holds the index, so that the identity of a
`Gc` pointer corresponds to the index. The `Number(f64)` payload is
modelled by a rational number (no claim exercises float edge cases). -/
inductive Value where
  | undefined
  | null
  | boolean (b : Bool)
  | number (q : Rat)
  | integer (n : Int)
  | string (s : String)
  | object (id : Nat)
  | function (id : Nat)
deriving DecidableEq

/-- Literal constants, mirroring `Const` in `syntax/ast/constant.rs` as far
as `run` consumes them (`Const::RegExp` carries three components in the
source; their contents never matter to `run`, which maps the literal to
`Null`). -/
inductive Const where
  | nullC
  | undefinedC
  | num (q : Rat)
  | int (n : Int)
  | str (s : String)
  | bool (b : Bool)
  | regExp (body : String) (f1 : String) (f2 : String)
deriving DecidableEq

/-- Comparison operators of `BinOp::Comp` that the verified claims exercise.
The relational operators (`<`, `<=`, `>`, `>=`) of the source enum coerce
both sides through `to_num` and are not needed by any claim, so they are
omitted from the embedding. -/
inductive CompOp where
  | equal
  | notEqual
  | strictEqual
  | strictNotEqual
deriving DecidableEq

mutual
/-- Expression AST mirroring `ExprDef` in `syntax/ast/expr.rs`, restricted
to the node kinds the verified claims are about. `Vec<Expr>` fields are
encoded by the mutual list type `EL`, switch cases `Vec<(Expr, Vec<Expr>)>`
by `CL`, declaration lists `Vec<(String, Option<Expr>)>` by `DL`, and
`Option<Box<Expr>>` by `OE`, so that decidable equality is available (the
source compares AST nodes with `==` inside `BlockExpr` evaluation). -/
inductive Expr where
  | constE (c : Const)
  | block (es : EL)
  | localE (name : String)
  | getConstField (obj : Expr) (field : String)
  | getField (obj : Expr) (field : Expr)
  | call (callee : Expr) (args : EL)
  | switchE (disc : Expr) (cases : CL) (dflt : OE)
  | functionDecl (name : Option String) (args : List String) (body : Expr)
  | arrowFunctionDecl (args : List String) (body : Expr)
  | binOpComp (op : CompOp) (a : Expr) (b : Expr)
  | constructE (callee : Expr) (args : EL)
  | throwE (ex : Expr)
  | assign (target : Expr) (value : Expr)
  | varDecl (vars : DL)
  | letDecl (vars : DL)
  | constDecl (vars : DL)
deriving DecidableEq

/-- A list of expressions (`Vec<Expr>` in the source). -/
inductive EL where
  | nil
  | cons (e : Expr) (rest : EL)
deriving DecidableEq

/-- Switch cases: a list of (condition, block) pairs. -/
inductive CL where
  | nil
  | cons (cond : Expr) (blk : EL) (rest : CL)
deriving DecidableEq

/-- Declaration lists: a list of (name, optional initializer) pairs. -/
inductive DL where
  | nil
  | cons (name : String) (init : OE) (rest : DL)
deriving DecidableEq

/-- An optional expression (`Option<Box<Expr>>` in the source). -/
inductive OE where
  | noneE
  | someE (e : Expr)
deriving DecidableEq
end

/-- Append of expression lists, used to state claims about block prefixes. -/
def EL.append : EL → EL → EL
  | .nil, ys => ys
  | .cons x xs, ys => .cons x (EL.append xs ys)

/-- The last element of an expression list (`Vec::last`). -/
def EL.lastQ : EL → Option Expr
  | .nil => none
  | .cons e .nil => some e
  | .cons _ (.cons e2 rest) => EL.lastQ (.cons e2 rest)

/-- Length of an expression list. -/
def EL.len : EL → Nat
  | .nil => 0
  | .cons _ rest => 1 + EL.len rest

/-- Callable representation, mirroring `Function` in `js/function.rs`.
A native callable is identified by an index into the `State.natives`
table supplied by the host; a regular callable owns its parameter names
and body (`RegularFunction::new(expr, args)`). -/
inductive Function where
  | nativeFunc (idx : Nat)
  | regularFunc (args : List String) (expr : Expr)
deriving DecidableEq

/-- One binding of a lexical-environment frame.
Modelled from the spec: the environment module is not under `src/`;
per the spec it offers mutable and immutable bindings. -/
structure Binding where
  mutableFlag : Bool
  value : Value
deriving DecidableEq

/-- One environment frame: an association list of bindings.
Modelled from the spec: frames form a chain for outward lookup. -/
abbrev Frame := List (String × Binding)

/-- Property storage of one heap object: a string-keyed property map and a
separate internal-slot map, per the spec's data model (§3). -/
structure ObjData where
  props : List (String × Value)
  slots : List (String × Value)
deriving DecidableEq

/-- A host-implemented native function: receives `this`, the callee value
and the argument list, and returns a success value or a thrown value.
Modelled from the spec: native callables are external collaborators whose
side effects the claims do not depend on, so they are modelled as pure
functions on values. -/
def NativeImpl := Value → Value → List Value → Except Value Value

/-- Interpreter state: the frame chain of the lexical environment, the
heap of objects and of callables, the host-supplied native table, and the
heap index of the global object. -/
structure State where
  frames : List Frame
  objs : List ObjData
  funcs : List Function
  natives : List NativeImpl
  globalId : Nat

/-- Insert or replace a binding in one frame (HashMap insert semantics). -/
def insert_binding : Frame → String → Binding → Frame
  | [], name, b => [(name, b)]
  | (n, b0) :: rest, name, b =>
    if n = name then (name, b) :: rest else (n, b0) :: insert_binding rest name b

/-- Create a binding of the given mutability in the current (top) frame.
Modelled from the spec: every assignment/declaration is a create-or-
overwrite in the current environment. The binding starts uninitialized
(carrying Undefined) until `init_binding` stores the value. -/
def create_binding (s : State) (name : String) (mutb : Bool) : State :=
  match s.frames with
  | [] => s
  | f :: rest => { s with frames := insert_binding f name ⟨mutb, .undefined⟩ :: rest }

/-- The environment's `create_mutable_binding` operation. -/
def create_mutable_binding (s : State) (name : String) : State :=
  create_binding s name true

/-- The environment's `create_immutable_binding` operation. -/
def create_immutable_binding (s : State) (name : String) : State :=
  create_binding s name false

/-- Store a value into an existing binding of a frame, keeping its
mutability flag. -/
def set_binding_value : Frame → String → Value → Frame
  | [], _, _ => []
  | (n, b) :: rest, name, v =>
    if n = name then (n, ⟨b.mutableFlag, v⟩) :: rest
    else (n, b) :: set_binding_value rest name v

/-- The environment's `initialize_binding` operation: store the value into
the binding just created in the current frame. -/
def init_binding (s : State) (name : String) (v : Value) : State :=
  match s.frames with
  | [] => s
  | f :: rest => { s with frames := set_binding_value f name v :: rest }

/-- Lookup of a name in one frame. -/
def frame_lookup : Frame → String → Option Binding
  | [], _ => none
  | (n, b) :: rest, name => if n = name then some b else frame_lookup rest name

/-- Lookup of a name through the frame chain, innermost first. -/
def frames_lookup : List Frame → String → Option Value
  | [], _ => none
  | f :: rest, name =>
    match frame_lookup f name with
    | some b => some b.value
    | none => frames_lookup rest name

/-- The environment's `get_binding_value` operation. Modelled from the
spec: an unresolved name is a collaborator-defined failure, modelled by
`none` (the evaluator turns it into a crash outcome). -/
def get_binding_value (s : State) (name : String) : Option Value :=
  frames_lookup s.frames name

/-- Push a fresh (function) scope frame, parented to the currently active
chain — the dynamic-scope parenting the spec flags in §9. -/
def push_frame (s : State) : State :=
  { s with frames := [] :: s.frames }

/-- Pop the top scope frame. -/
def pop_frame (s : State) : State :=
  { s with frames := s.frames.tail }

/-- The environment's `get_global_object` accessor. -/
def get_global_object (s : State) : Value :=
  .object s.globalId

/-- Association-list lookup for object property maps. -/
def lookup_assoc : List (String × Value) → String → Option Value
  | [], _ => none
  | (k, v) :: rest, key => if k = key then some v else lookup_assoc rest key

/-- Association-list insert-or-replace for object property maps. -/
def insert_assoc : List (String × Value) → String → Value → List (String × Value)
  | [], key, v => [(key, v)]
  | (k, v0) :: rest, key, v =>
    if k = key then (key, v) :: rest else (k, v0) :: insert_assoc rest key v

/-- Allocate a fresh empty object, returning its id. -/
def alloc_object (s : State) : Nat × State :=
  (s.objs.length, { s with objs := s.objs ++ [⟨[], []⟩] })

/-- Allocate a fresh callable, returning its id. -/
def alloc_function (s : State) (f : Function) : Nat × State :=
  (s.funcs.length, { s with funcs := s.funcs ++ [f] })

/-- Property lookup with prototype-chain delegation, bounded by the
delegation depth. Modelled from the spec (§3): every object has one
internal prototype slot used for lookup delegation. -/
def get_field_aux (s : State) : Nat → Nat → String → Value
  | 0, _, _ => .undefined
  | k+1, id, fld =>
    match s.objs[id]? with
    | none => .undefined
    | some o =>
      match lookup_assoc o.props fld with
      | some v => v
      | none =>
        match lookup_assoc o.slots "__proto__" with
        | some (.object pid) => get_field_aux s k pid fld
        | _ => .undefined

/-- The `get_field` operation of `js/value.rs`. Modelled from the spec:
property lookup on an object delegates through the prototype slot; on any
non-object value (including `Function` values, which the source stores
without a property map) it yields Undefined. -/
def get_field (s : State) (v : Value) (fld : String) : Value :=
  match v with
  | .object id => get_field_aux s (s.objs.length + 1) id fld
  | _ => .undefined

/-- The `set_field` / `set_field_slice` operation of `js/value.rs`.
Modelled from the spec: setting a property on an object mutates its
shared property map (the key `__proto__` is routed to the internal
prototype slot); setting on a non-object value is a no-op. -/
def set_field (s : State) (v : Value) (fld : String) (val : Value) : State :=
  match v with
  | .object id =>
    match s.objs[id]? with
    | none => s
    | some o =>
      let o2 := if fld = "__proto__"
        then { o with slots := insert_assoc o.slots fld val }
        else { o with props := insert_assoc o.props fld val }
      { s with objs := s.objs.set id o2 }
  | _ => s

/-- Equality of `ValueData` values (the `PartialEq` implementation of
`js/value.rs`, which `Gc`'s `PartialEq` delegates to). Modelled from the
spec (§3): primitive variants compare by value; Object and Function
variants compare by identity only (here: by heap index). -/
def valueDataEq : Value → Value → Bool
  | .undefined, .undefined => true
  | .null, .null => true
  | .boolean a, .boolean b => a == b
  | .number a, .number b => a == b
  | .integer a, .integer b => a == b
  | .string a, .string b => a == b
  | .object i, .object j => i == j
  | .function i, .function j => i == j
  | _, _ => false

/-- Equality of `Gc<ValueData>` handles: the `gc` crate's `PartialEq`
delegates to the inner `ValueData` comparison. -/
def gc_value_eq (a b : Value) : Bool := valueDataEq a b

/-- The `is_object` predicate of `js/value.rs`: true exactly on the
Object variant. -/
def is_object : Value → Bool
  | .object _ => true
  | _ => false

/-- The `is_primitive` predicate of `js/value.rs`. Modelled from the spec:
Object and Function values are not primitive, everything else is. -/
def is_primitive : Value → Bool
  | .object _ => false
  | .function _ => false
  | _ => true

/-- The `is_null_or_undefined` predicate of `js/value.rs`. -/
def is_null_or_undefined : Value → Bool
  | .null => true
  | .undefined => true
  | _ => false

/-- String coercion used for computed member access. Modelled from the
spec; no verified claim depends on its exact text. -/
def to_string_v : Value → String
  | .string s => s
  | .integer n => toString n
  | .number q => toString q
  | .boolean b => if b then "true" else "false"
  | .null => "null"
  | .undefined => "undefined"
  | .object _ => "[object Object]"
  | .function _ => "[function]"

/-- Conversion of a literal constant to a value, mirroring the
`ConstExpr` arms of `run` (a regex literal is an unimplemented
placeholder, and `to_value(None::<()>)` is Null). -/
def const_to_value : Const → Value
  | .nullC => .null
  | .undefinedC => .undefined
  | .num q => .number q
  | .int n => .integer n
  | .str s => .string s
  | .bool b => .boolean b
  | .regExp _ _ _ => .null

/-- Evaluation of the four embedded comparison operators an the two
already-evaluated operands, mirroring the `BinOpExpr(BinOp::Comp ..)` arm:
when the left operand is an object the `Gc` handles are compared,
otherwise the dereferenced values are. -/
def comp_op_eval : CompOp → Value → Value → Bool
  | .equal, va, vb => if is_object va then gc_value_eq va vb else valueDataEq va vb
  | .notEqual, va, vb => if is_object va then !(gc_value_eq va vb) else !(valueDataEq va vb)
  | .strictEqual, va, vb => if is_object va then gc_value_eq va vb else valueDataEq va vb
  | .strictNotEqual, va, vb => if is_object va then !(gc_value_eq va vb) else !(valueDataEq va vb)

/-- Outcome of one evaluation: success, a thrown value (`Err` of
`ResultValue`), a Rust panic (`crash`), or fuel exhaustion (`timeout`,
an artifact of the embedding only). -/
inductive RRes (α : Type) where
  | ok (a : α)
  | thrown (v : Value)
  | crash
  | timeout
deriving DecidableEq

/-- Sequencing of evaluations: failures short-circuit, successes feed the
continuation (the `?` operator of the source). -/
def andThen {α β : Type} (r : RRes α × State) (k : α → State → RRes β × State) :
    RRes β × State :=
  match r with
  | (.ok a, s) => k a s
  | (.thrown v, s) => (.thrown v, s)
  | (.crash, s) => (.crash, s)
  | (.timeout, s) => (.timeout, s)

@[simp] theorem andThen_ok {α β : Type} (a : α) (s : State)
    (k : α → State → RRes β × State) : andThen (.ok a, s) k = k a s := rfl

@[simp] theorem andThen_thrown {α β : Type} (v : Value) (s : State)
    (k : α → State → RRes β × State) : andThen (.thrown v, s) k = (.thrown v, s) := rfl

@[simp] theorem andThen_crash {α β : Type} (s : State)
    (k : α → State → RRes β × State) : andThen ((.crash : RRes α), s) k = (.crash, s) := rfl

@[simp] theorem andThen_timeout {α β : Type} (s : State)
    (k : α → State → RRes β × State) : andThen ((.timeout : RRes α), s) k = (.timeout, s) := rfl

/-- Invocation of a native callable from the host table. A missing table
entry cannot occur in the source (the function pointer is always present)
and is modelled as a crash. -/
def apply_native (s : State) (idx : Nat) (thisV cv : Value) (args : List Value) :
    RRes Value × State :=
  match s.natives[idx]? with
  | some f =>
    match f thisV cv args with
    | .ok v => (.ok v, s)
    | .error v => (.thrown v, s)
  | none => (.crash, s)

/-- Positional parameter binding of a regular callable, mirroring the
`for i in 0..data.args.len()` loop: each declared name is bound to
`v_args.get(i).unwrap()`, so a missing positional argument is an
uncontrolled panic (`crash`); surplus arguments are ignored. -/
def bind_params : List String → List Value → State → RRes Unit × State
  | [], _, s => (.ok (), s)
  | _ :: _, [], s => (.crash, s)
  | n :: ns, v :: vs, s =>
    bind_params ns vs (init_binding (create_mutable_binding s n) n v)

/-- Evaluate a regular callable's body, then pop the scope frame.
The source stores the `Result` and pops before returning, so the pop
happens on success and on a thrown value; a panic unwinds without the
pop. -/
def run_then_pop (r : RRes Value × State) : RRes Value × State :=
  match r with
  | (.ok v, s) => (.ok v, pop_frame s)
  | (.thrown v, s) => (.thrown v, pop_frame s)
  | (.crash, s) => (.crash, s)
  | (.timeout, s) => (.timeout, s)

/-- The `.unwrap()` applied to a `ResultValue` in `box_into_instance`:
a thrown value becomes an uncontrolled panic. -/
def unwrap_result (r : RRes Value × State) : RRes Value × State :=
  match r with
  | (.ok v, s) => (.ok v, s)
  | (.thrown _, s) => (.crash, s)
  | (.crash, s) => (.crash, s)
  | (.timeout, s) => (.timeout, s)

/-- The type of the one-level-less evaluator threaded through the
iteration helpers. -/
abbrev RunF := Expr → State → RRes Value × State

/-- Left-to-right evaluation of an argument list into a value list,
mirroring the `v_args` loops. -/
def run_args (runF : RunF) : EL → State → RRes (List Value) × State
  | .nil, s => (.ok [], s)
  | .cons a rest, s =>
    andThen (runF a s) (fun v s1 =>
      andThen (run_args runF rest s1) (fun vs s2 => (.ok (v :: vs), s2)))

/-- The `BlockExpr` loop body (also reused for a matched switch case's
block): evaluate each expression in order, and overwrite the running
result exactly when the current expression structurally equals the
block's last expression (`if e == es.last().unwrap()`). -/
def block_iter (runF : RunF) (lastE : Expr) : EL → Value → State → RRes Value × State
  | .nil, obj, s => (.ok obj, s)
  | .cons e rest, obj, s =>
    andThen (runF e s) (fun v s1 =>
      block_iter runF lastE rest (if e = lastE then v else obj) s1)

/-- The `SwitchExpr` case loop: evaluate every case condition in declared
order; whenever the (already evaluated) discriminant value-equals the
condition, set the matched flag and run the case block, overwriting the
running result with the block's last value (`block.last().unwrap()`
panics on an empty case block). -/
def case_iter (runF : RunF) (v : Value) :
    CL → Bool → Value → State → RRes (Bool × Value) × State
  | .nil, matched, result, s => (.ok (matched, result), s)
  | .cons cond blk rest, matched, result, s =>
    andThen (runF cond s) (fun cv s1 =>
      if valueDataEq v cv then
        match blk.lastQ with
        | none => (.crash, s1)
        | some lastB =>
          andThen (block_iter runF lastB blk result s1) (fun r s2 =>
            case_iter runF v rest true r s2)
      else case_iter runF v rest matched result s1)

/-- The declaration loop shared by the `VarDeclExpr`, `LetDeclExpr` and
`ConstDeclExpr` arms, which are textually identical in the source except
that the const arm calls `create_immutable_binding`: evaluate each
initializer (defaulting to Null when absent), create a binding of the
given mutability and initialize it; the declaration yields Undefined. -/
def decl_iter (runF : RunF) (mutb : Bool) : DL → State → RRes Value × State
  | .nil, s => (.ok .undefined, s)
  | .cons name iv rest, s =>
    match iv with
    | .someE e =>
      andThen (runF e s) (fun v s1 =>
        decl_iter runF mutb rest (init_binding (create_binding s1 name mutb) name v))
    | .noneE =>
      decl_iter runF mutb rest (init_binding (create_binding s name mutb) name .null)

/-- Allocation step of `construct_new_object`: construct a fresh empty
object and set its `__proto__` slot to the constructor's `prototype`
property. -/
def construct_this (s : State) (func : Value) : State :=
  let p := alloc_object s
  set_field p.2 (.object p.1) "__proto__" (get_field p.2 func "prototype")

/-- The `Interpreter::construct_new_object` method: allocate the instance,
link its prototype, and dispatch on the callable kind; a non-callable
constructor yields `Ok(Undefined)`. -/
def construct_new_object (runF : RunF) (func : Value) (vargs : List Value)
    (s : State) : RRes Value × State :=
  let thisId := s.objs.length
  let s2 := construct_this s func
  match func with
  | .function fid =>
    match s2.funcs[fid]? with
    | some (.nativeFunc idx) => apply_native s2 idx (.object thisId) .undefined vargs
    | some (.regularFunc params body) =>
      andThen (bind_params params vargs (push_frame s2)) (fun _ s3 =>
        run_then_pop (runF body s3))
    | none => (.crash, s2)
  | _ => (.ok .undefined, s2)

/-- The `Interpreter::box_into_instance` method: a Boolean, Number,
Integer or String primitive is boxed by running the construction protocol
on the matching global wrapper constructor (with `.unwrap()` on the
result); any other value yields Undefined. -/
def box_into_instance (runF : RunF) (val : Value) (s : State) : RRes Value × State :=
  match val with
  | .boolean _ =>
    unwrap_result (construct_new_object runF
      (get_field s (get_global_object s) "Boolean") [val] s)
  | .number _ =>
    unwrap_result (construct_new_object runF
      (get_field s (get_global_object s) "Number") [val] s)
  | .integer _ =>
    unwrap_result (construct_new_object runF
      (get_field s (get_global_object s) "Number") [val] s)
  | .string _ =>
    unwrap_result (construct_new_object runF
      (get_field s (get_global_object s) "String") [val] s)
  | _ => (.ok .undefined, s)

/-- Resolution of `(this, func)` from the callee's shape in the
`CallExpr` arm: a constant-key or computed-key member access evaluates
the receiver (autoboxing primitives other than Null/Undefined) and
fetches the property; any other callee shape pairs the global object with
the evaluated callee. -/
def resolve_callee (runF : RunF) (callee : Expr) (s : State) :
    RRes (Value × Value) × State :=
  match callee with
  | .getConstField objE field =>
    andThen (runF objE s) (fun val s1 =>
      if is_primitive val && !(is_null_or_undefined val) then
        andThen (box_into_instance runF val s1) (fun inst s2 =>
          (.ok (inst, get_field s2 inst field), s2))
      else (.ok (val, get_field s1 val field), s1))
  | .getField objE fieldE =>
    andThen (runF objE s) (fun val s1 =>
      andThen (runF fieldE s1) (fun fv s2 =>
        if is_primitive val && !(is_null_or_undefined val) then
          andThen (box_into_instance runF val s2) (fun inst s3 =>
            (.ok (inst, get_field s3 inst (to_string_v fv)), s3))
        else (.ok (val, get_field s2 val (to_string_v fv)), s2)))
  | _ =>
    andThen (runF callee s) (fun f s1 => (.ok (get_global_object s1, f), s1))

/-- The remainder of the `SwitchExpr` arm after the discriminant has been
evaluated (once) to `v`: run the case loop with `matched = false` and
`result = Null`; if nothing matched and a default block is present, the
default's value replaces the result. -/
def switch_rest (runF : RunF) (v : Value) (cs : CL) (dflt : OE) (s : State) :
    RRes Value × State :=
  andThen (case_iter runF v cs false .null s) (fun mr s2 =>
    if mr.1 then (.ok mr.2, s2)
    else
      match dflt with
      | .someE de => runF de s2
      | .noneE => (.ok mr.2, s2))

/-- The recursive evaluator `Interpreter::run`, embedded with a fuel
parameter that decreases by one at each nesting level (fuel exhaustion is
the `timeout` outcome; siblings at the same nesting level share the same
fuel). Every arm mirrors the corresponding `ExprDef` arm of the source. -/
def run : Nat → Expr → State → RRes Value × State
  | 0, _, s => (.timeout, s)
  | fuel+1, e, s =>
    match e with
    | .constE c => (.ok (const_to_value c), s)
    | .block es =>
      match es.lastQ with
      | none => (.ok .null, s)
      | some lastE => block_iter (run fuel) lastE es .null s
    | .localE name =>
      match get_binding_value s name with
      | some v => (.ok v, s)
      | none => (.crash, s)
    | .getConstField objE field =>
      andThen (run fuel objE s) (fun v s1 => (.ok (get_field s1 v field), s1))
    | .getField objE fieldE =>
      andThen (run fuel objE s) (fun v s1 =>
        andThen (run fuel fieldE s1) (fun fv s2 =>
          (.ok (get_field s2 v (to_string_v fv)), s2)))
    | .call callee args =>
      andThen (resolve_callee (run fuel) callee s) (fun tf s1 =>
        andThen (run_args (run fuel) args s1) (fun vargs s2 =>
          match tf.2 with
          | .function fid =>
            match s2.funcs[fid]? with
            | some (.nativeFunc idx) =>
              andThen (run fuel callee s2) (fun cv s3 =>
                apply_native s3 idx tf.1 cv vargs)
            | some (.regularFunc params body) =>
              andThen (bind_params params vargs (push_frame s2)) (fun _ s3 =>
                run_then_pop (run fuel body s3))
            | none => (.crash, s2)
          | _ => (.thrown .undefined, s2)))
    | .switchE d cs dflt =>
      andThen (run fuel d s) (fun v s1 => switch_rest (run fuel) v cs dflt s1)
    | .functionDecl nameOpt params body =>
      let p := alloc_function s (.regularFunc params body)
      match nameOpt with
      | some name =>
        (.ok (.function p.1),
          init_binding (create_mutable_binding p.2 name) name (.function p.1))
      | none => (.ok (.function p.1), p.2)
    | .arrowFunctionDecl params body =>
      let p := alloc_function s (.regularFunc params body)
      (.ok (.function p.1), p.2)
    | .binOpComp op a b =>
      andThen (run fuel a s) (fun va s1 =>
        andThen (run fuel b s1) (fun vb s2 =>
          (.ok (.boolean (comp_op_eval op va vb)), s2)))
    | .constructE callee args =>
      andThen (run fuel callee s) (fun func s1 =>
        andThen (run_args (run fuel) args s1) (fun vargs s2 =>
          construct_new_object (run fuel) func vargs s2))
    | .throwE ex =>
      andThen (run fuel ex s) (fun v s1 => (.thrown v, s1))
    | .assign refE valE =>
      andThen (run fuel valE s) (fun val s1 =>
        match refE with
        | .localE name =>
          (.ok val, init_binding (create_mutable_binding s1 name) name val)
        | .getConstField objE field =>
          andThen (run fuel objE s1) (fun objV s2 =>
            (.ok val, set_field s2 objV field val))
        | _ => (.ok val, s1))
    | .varDecl vars => decl_iter (run fuel) true vars s
    | .letDecl vars => decl_iter (run fuel) true vars s
    | .constDecl vars => decl_iter (run fuel) false vars s

/-- The state right after `Interpreter::new`, with the builtin-initializer
collaborators (console, math, array, ...) omitted: one empty global scope
frame, the empty global object at heap index 0, and no natives. -/
def state0 : State :=
  { frames := [[]], objs := [⟨[], []⟩], funcs := [], natives := [], globalId := 0 }

/-- Append of switch-case lists, used to state the last-match property. -/
def CL.append : CL → CL → CL
  | .nil, ys => ys
  | .cons c b rest, ys => .cons c b (CL.append rest ys)

/-- Once the matched flag is set it stays set: a successful case loop that
starts matched ends matched. -/
theorem case_iter_matched_stays (runF : RunF) (v : Value) :
    (cs : CL) → (r : Value) → (s : State) → (m : Bool) → (r2 : Value) →
    (s2 : State) →
    case_iter runF v cs true r s = (.ok (m, r2), s2) → m = true
  | .nil, r, s, m, r2, s2, h => by
    simp only [case_iter, Prod.mk.injEq, RRes.ok.injEq] at h
    exact h.1.1.symm
  | .cons cond blk rest, r, s, m, r2, s2, h => by
    simp only [case_iter] at h
    rcases hr : runF cond s with ⟨res, s1⟩
    rw [hr] at h
    cases res with
    | ok cv =>
      simp only [andThen_ok] at h
      by_cases hm : valueDataEq v cv
      · rw [if_pos hm] at h
        cases hlq : blk.lastQ with
        | none => simp only [hlq] at h; simp at h
        | some lastB =>
          simp only [hlq] at h
          rcases hb : block_iter runF lastB blk r s1 with ⟨bres, sb⟩
          rw [hb] at h
          cases bres with
          | ok rv =>
            simp only [andThen_ok] at h
            exact case_iter_matched_stays runF v rest rv sb m r2 s2 h
          | thrown tv => simp [andThen] at h
          | crash => simp [andThen] at h
          | timeout => simp [andThen] at h
      · rw [if_neg hm] at h
        exact case_iter_matched_stays runF v rest r s1 m r2 s2 h
    | thrown tv => simp [andThen] at h
    | crash => simp [andThen] at h
    | timeout => simp [andThen] at h

/-- A case loop that starts unmatched and ends unmatched never touched the
running result. -/
theorem case_iter_no_match_result (runF : RunF) (v : Value) :
    (cs : CL) → (r0 : Value) → (s : State) → (r : Value) → (s2 : State) →
    case_iter runF v cs false r0 s = (.ok (false, r), s2) → r = r0
  | .nil, r0, s, r, s2, h => by
    simp only [case_iter, Prod.mk.injEq, RRes.ok.injEq] at h
    exact h.1.2.symm
  | .cons cond blk rest, r0, s, r, s2, h => by
    simp only [case_iter] at h
    rcases hr : runF cond s with ⟨res, s1⟩
    rw [hr] at h
    cases res with
    | ok cv =>
      simp only [andThen_ok] at h
      by_cases hm : valueDataEq v cv
      · rw [if_pos hm] at h
        cases hlq : blk.lastQ with
        | none => simp only [hlq] at h; simp at h
        | some lastB =>
          simp only [hlq] at h
          rcases hb : block_iter runF lastB blk r0 s1 with ⟨bres, sb⟩
          rw [hb] at h
          cases bres with
          | ok rv =>
            simp only [andThen_ok] at h
            exact absurd (case_iter_matched_stays runF v rest rv sb false r s2 h)
              (by simp)
          | thrown tv => simp [andThen] at h
          | crash => simp [andThen] at h
          | timeout => simp [andThen] at h
      · rw [if_neg hm] at h
        exact case_iter_no_match_result runF v rest r0 s1 r s2 h
    | thrown tv => simp [andThen] at h
    | crash => simp [andThen] at h
    | timeout => simp [andThen] at h

/-- C9: evaluating an empty block expression succeeds and yields Null (the
loop body never executes, so the `Vec::last().unwrap()` is not reached and
the initial `to_value(None)` accumulator is returned), and Null is a value
distinct from Undefined. -/
theorem claim_C9 :
    (∀ (fuel : Nat) (s : State), run (fuel+1) (.block .nil) s = (.ok .null, s))
    ∧ (Value.null ≠ Value.undefined) := by
  constructor
  · intro fuel s
    rfl
  · simp

/-- C4 (the code bug): invoking a regular callable declared with one
parameter with zero arguments reaches `v_args.get(0).unwrap()` on an empty
argument vector, which panics — modelled as the `crash` outcome — instead of
producing an error-kind `Result` as the specification requires. The failing
input is the program `function f(a) { a }; f()`. -/
theorem claim_C4 :
    (run 9 (.block (.cons
        (.functionDecl (some "f") ["a"] (.localE "a"))
        (.cons (.call (.localE "f") .nil) .nil)))
      state0).1 = .crash := by rfl

/-- C1, counterexample: a switch whose discriminant (the integer 0) matches
no case and that has no default block evaluates to Null — not to Undefined
as the claim states — because the result accumulator is initialized with
`ValueData::Null` and never overwritten. -/
theorem claim_C1_cex :
    (run 5 (.switchE (.constE (.int 0))
        (.cons (.constE (.int 1)) (.cons (.constE (.str "one")) .nil) .nil)
        .noneE) state0).1 = .ok .null
    ∧ (RRes.ok Value.null ≠ (RRes.ok Value.undefined : RRes Value)) := by
  constructor
  · rfl
  · simp

/-- C1 as amended: for a switch whose discriminant value-equals none of the
case conditions (the case loop completes with the matched flag still
false), a present default block's value is the result, and with no default
block the switch evaluates to Null. -/
theorem claim_C1 (fuel : Nat) (d : Expr) (cs : CL) (v r : Value)
    (s s1 s2 : State)
    (hd : run fuel d s = (.ok v, s1))
    (hc : case_iter (run fuel) v cs false .null s1 = (.ok (false, r), s2)) :
    (run (fuel+1) (.switchE d cs .noneE) s = (.ok .null, s2))
    ∧ (∀ (defE : Expr) (dv : Value) (s3 : State),
        run fuel defE s2 = (.ok dv, s3) →
        run (fuel+1) (.switchE d cs (.someE defE)) s = (.ok dv, s3)) := by
  have hr : r = Value.null := case_iter_no_match_result (run fuel) v cs .null s1 r s2 hc
  constructor
  · show andThen (run fuel d s) (fun v s1 => switch_rest (run fuel) v cs .noneE s1)
      = (.ok .null, s2)
    rw [hd, andThen_ok]
    simp only [switch_rest, hc, andThen_ok]
    simp [hr]
  · intro defE dv s3 hdef
    show andThen (run fuel d s) (fun v s1 => switch_rest (run fuel) v cs (.someE defE) s1)
      = (.ok dv, s3)
    rw [hd, andThen_ok]
    simp only [switch_rest, hc, andThen_ok]
    simp [hdef]

/-- C1 witness: the spec's own example, `switch (3) { case 1: "one";
case 2: "two"; default: "other" }`, evaluates to "other" via the amended
theorem. -/
theorem claim_C1_w :
    run (8+1) (.switchE (.constE (.int 3))
      (.cons (.constE (.int 1)) (.cons (.constE (.str "one")) .nil)
        (.cons (.constE (.int 2)) (.cons (.constE (.str "two")) .nil) .nil))
      (.someE (.constE (.str "other")))) state0
    = (.ok (.string "other"), state0) :=
  (claim_C1 8 (.constE (.int 3))
    (.cons (.constE (.int 1)) (.cons (.constE (.str "one")) .nil)
      (.cons (.constE (.int 2)) (.cons (.constE (.str "two")) .nil) .nil))
    (.integer 3) .null state0 state0 state0 rfl rfl).2
    (.constE (.str "other")) (.string "other") state0 rfl

/-- C2, counterexample: in a switch on discriminant 1 with two cases both
guarded by the literal 1, the result is the second case's block value
"uno": the case loop has no break, so the first matching case does not
determine the result and the later matching case's block is evaluated. -/
theorem claim_C2_cex :
    (run 5 (.switchE (.constE (.int 1))
        (.cons (.constE (.int 1)) (.cons (.constE (.str "one")) .nil)
          (.cons (.constE (.int 1)) (.cons (.constE (.str "uno")) .nil) .nil))
        .noneE) state0).1 = .ok (.string "uno")
    ∧ (RRes.ok (Value.string "uno") ≠ (RRes.ok (Value.string "one") : RRes Value)) := by
  constructor
  · rfl
  · simp

/-- Appending one further case whose condition also matches: its guard is
still evaluated (even when an earlier case already matched), its block is
run starting from the accumulated result, and its block's value becomes
the loop's result — the last matching case wins. -/
theorem case_iter_last_match (runF : RunF) (v : Value) (c : Expr) (blk : EL)
    (lastB : Expr) (cv bv : Value) :
    (cs : CL) → (m : Bool) → (r : Value) → (s : State) → (m1 : Bool) →
    (r1 : Value) → (s1 s2 s3 : State) →
    case_iter runF v cs m r s = (.ok (m1, r1), s1) →
    runF c s1 = (.ok cv, s2) →
    valueDataEq v cv = true →
    blk.lastQ = some lastB →
    block_iter runF lastB blk r1 s2 = (.ok bv, s3) →
    case_iter runF v (CL.append cs (.cons c blk .nil)) m r s = (.ok (true, bv), s3)
  | .nil, m, r, s, m1, r1, s1, s2, s3, hpre, hc, heq, hlq, hblk => by
    simp only [case_iter, Prod.mk.injEq, RRes.ok.injEq] at hpre
    obtain ⟨⟨hm, hr⟩, hs⟩ := hpre
    subst hm; subst hr; subst hs
    simp [CL.append, case_iter, hc, andThen_ok, heq, hlq, hblk]
  | .cons cond2 blk2 rest, m, r, s, m1, r1, s1, s2, s3, hpre, hc, heq, hlq, hblk => by
    simp only [case_iter, CL.append] at hpre ⊢
    rcases hr2 : runF cond2 s with ⟨res, sa⟩
    simp only [hr2] at hpre ⊢
    cases res with
    | ok cv2 =>
      simp only [andThen_ok] at hpre ⊢
      by_cases hm2 : valueDataEq v cv2
      · rw [if_pos hm2] at hpre
        rw [if_pos hm2]
        cases hlq2 : blk2.lastQ with
        | none => simp only [hlq2] at hpre; simp at hpre
        | some lastB2 =>
          simp only [hlq2] at hpre ⊢
          rcases hb2 : block_iter runF lastB2 blk2 r sa with ⟨bres, sb⟩
          simp only [hb2] at hpre ⊢
          cases bres with
          | ok rv =>
            simp only [andThen_ok] at hpre ⊢
            exact case_iter_last_match runF v c blk lastB cv bv rest true rv sb
              m1 r1 s1 s2 s3 hpre hc heq hlq hblk
          | thrown tv => simp [andThen] at hpre
          | crash => simp [andThen] at hpre
          | timeout => simp [andThen] at hpre
      · rw [if_neg hm2] at hpre
        rw [if_neg hm2]
        exact case_iter_last_match runF v c blk lastB cv bv rest m r sa
          m1 r1 s1 s2 s3 hpre hc heq hlq hblk
    | thrown tv => simp [andThen] at hpre
    | crash => simp [andThen] at hpre
    | timeout => simp [andThen] at hpre

/-- C2 as amended: the discriminant is evaluated exactly once — the whole
switch factors through the single discriminant value — and case conditions
are evaluated in declared order even after a match; when several cases
value-equal the discriminant, each matching case's block is evaluated and
the last matching case determines the result (there is no break after the
first match). -/
theorem claim_C2 :
    (∀ (fuel : Nat) (d : Expr) (cs : CL) (dflt : OE) (s : State),
      run (fuel+1) (.switchE d cs dflt) s
        = andThen (run fuel d s) (fun v s1 => switch_rest (run fuel) v cs dflt s1))
    ∧ (∀ (fuel : Nat) (v : Value) (c : Expr) (blk : EL) (lastB : Expr)
        (cv bv : Value) (cs : CL) (m : Bool) (r : Value) (s : State)
        (m1 : Bool) (r1 : Value) (s1 s2 s3 : State),
      case_iter (run fuel) v cs m r s = (.ok (m1, r1), s1) →
      run fuel c s1 = (.ok cv, s2) →
      valueDataEq v cv = true →
      blk.lastQ = some lastB →
      block_iter (run fuel) lastB blk r1 s2 = (.ok bv, s3) →
      case_iter (run fuel) v (CL.append cs (.cons c blk .nil)) m r s
        = (.ok (true, bv), s3)) := by
  constructor
  · intro fuel d cs dflt s
    rfl
  · intro fuel v c blk lastB cv bv cs m r s m1 r1 s1 s2 s3 hpre hc heq hlq hblk
    exact case_iter_last_match (run fuel) v c blk lastB cv bv cs m r s
      m1 r1 s1 s2 s3 hpre hc heq hlq hblk

/-- C2 witness: with discriminant value 1 and a first case `1 -> "one"`
already matched, appending a second case `1 -> "uno"` makes the loop
evaluate its guard and block as well and report `(true, "uno")`. -/
theorem claim_C2_w :
    case_iter (run 4) (.integer 1)
      (CL.append (.cons (.constE (.int 1)) (.cons (.constE (.str "one")) .nil) .nil)
        (.cons (.constE (.int 1)) (.cons (.constE (.str "uno")) .nil) .nil))
      false .null state0
    = (.ok (true, .string "uno"), state0) :=
  claim_C2.2 4 (.integer 1) (.constE (.int 1))
    (.cons (.constE (.str "uno")) .nil) (.constE (.str "uno"))
    (.integer 1) (.string "uno")
    (.cons (.constE (.int 1)) (.cons (.constE (.str "one")) .nil) .nil)
    false .null state0 true (.string "one") state0 state0 state0
    rfl rfl rfl rfl rfl

/-- Predicate of the spec's §3 equality rule: an Object or Function value. -/
def is_object_or_function : Value → Bool
  | .object _ => true
  | .function _ => true
  | _ => false

/-- Identity of two values as the spec words it: Object and Function
variants compare by identity only, and a value of any other kind is never
identical to an Object or Function. -/
def id_eq : Value → Value → Bool
  | .object i, .object j => i == j
  | .function i, .function j => i == j
  | _, _ => false

/-- Value comparison of two primitive values as the spec words it:
primitive variants compare by value. -/
def prim_eq : Value → Value → Bool
  | .undefined, .undefined => true
  | .null, .null => true
  | .boolean a, .boolean b => a == b
  | .number a, .number b => a == b
  | .integer a, .integer b => a == b
  | .string a, .string b => a == b
  | _, _ => false

/-- Identity comparison under the four equality operators. -/
def identity_compare : CompOp → Value → Value → Bool
  | .equal, a, b => id_eq a b
  | .strictEqual, a, b => id_eq a b
  | .notEqual, a, b => !(id_eq a b)
  | .strictNotEqual, a, b => !(id_eq a b)

/-- Value comparison under the four equality operators. -/
def value_compare : CompOp → Value → Value → Bool
  | .equal, a, b => prim_eq a b
  | .strictEqual, a, b => prim_eq a b
  | .notEqual, a, b => !(prim_eq a b)
  | .strictNotEqual, a, b => !(prim_eq a b)

/-- The spec's stated rule for `==`, `!=`, `===`, `!==`: identity when
either side is an Object or Function, value comparison otherwise. -/
def spec_equality (op : CompOp) (a b : Value) : Bool :=
  if is_object_or_function a || is_object_or_function b
  then identity_compare op a b
  else value_compare op a b

/-- The comparison the source computes agrees with the spec's rule on every
pair of values: the source dispatches on `v_a.is_object()` (the left side
only), but both of its branches delegate to the same `ValueData` equality,
which is identity on Objects and Functions and value equality on
primitives. -/
theorem comp_op_eval_eq_spec :
    ∀ (op : CompOp) (va vb : Value), comp_op_eval op va vb = spec_equality op va vb := by
  intro op va vb
  cases op <;> cases va <;> cases vb <;> rfl

/-- C3: an equality or inequality expression evaluates both operands and
yields the boolean given by the spec's rule — identity comparison when
either operand is an Object or Function (in particular a primitive on the
left against an object on the right), value comparison otherwise. -/
theorem claim_C3 (fuel : Nat) (op : CompOp) (a b : Expr) (va vb : Value)
    (s s1 s2 : State)
    (ha : run fuel a s = (.ok va, s1)) (hb : run fuel b s1 = (.ok vb, s2)) :
    run (fuel+1) (.binOpComp op a b) s
      = (.ok (.boolean (spec_equality op va vb)), s2) := by
  have h0 : run (fuel+1) (.binOpComp op a b) s
      = andThen (run fuel a s) (fun va s1 =>
          andThen (run fuel b s1) (fun vb s2 =>
            (.ok (.boolean (comp_op_eval op va vb)), s2))) := rfl
  rw [h0, ha, andThen_ok, hb, andThen_ok, comp_op_eval_eq_spec]

/-- A state holding two distinct empty objects bound to `o1` and `o2`,
used to witness identity comparison. -/
def state2obj : State :=
  { frames := [[("o1", ⟨true, .object 1⟩), ("o2", ⟨true, .object 2⟩)]],
    objs := [⟨[], []⟩, ⟨[], []⟩, ⟨[], []⟩], funcs := [], natives := [],
    globalId := 0 }

/-- C3 witness: comparing two distinct objects with `==` evaluates to the
spec rule's value, which is false (identity, not structural, equality),
while two equal integer literals compare equal. -/
theorem claim_C3_w :
    (run (1+1) (.binOpComp .equal (.localE "o1") (.localE "o2")) state2obj
      = (.ok (.boolean (spec_equality .equal (.object 1) (.object 2))), state2obj))
    ∧ spec_equality .equal (.object 1) (.object 2) = false
    ∧ (run (1+1) (.binOpComp .equal (.constE (.int 2)) (.constE (.int 2))) state2obj
      = (.ok (.boolean (spec_equality .equal (.integer 2) (.integer 2))), state2obj))
    ∧ spec_equality .equal (.integer 2) (.integer 2) = true :=
  ⟨claim_C3 1 .equal (.localE "o1") (.localE "o2") (.object 1) (.object 2)
      state2obj state2obj state2obj rfl rfl,
    rfl,
    claim_C3 1 .equal (.constE (.int 2)) (.constE (.int 2)) (.integer 2) (.integer 2)
      state2obj state2obj state2obj rfl rfl,
    rfl⟩

/-- C9 witness: the empty block in the fresh interpreter state evaluates
to Null. -/
theorem claim_C9_w : run (0+1) (.block .nil) state0 = (.ok .null, state0) :=
  claim_C9.1 0 state0

/-- A successful declaration loop always produces Undefined: the only
arm of `decl_iter` that returns a success result is the empty list. -/
theorem decl_iter_ok_undefined (runF : RunF) (mutb : Bool) :
    (vars : DL) → (s s2 : State) → (v : Value) →
    decl_iter runF mutb vars s = (.ok v, s2) → v = .undefined
  | .nil, s, s2, v, h => by
    simp only [decl_iter, Prod.mk.injEq, RRes.ok.injEq] at h
    exact h.1.symm
  | .cons name iv rest, s, s2, v, h => by
    cases iv with
    | someE e =>
      simp only [decl_iter] at h
      rcases hr : runF e s with ⟨res, s1⟩
      simp only [hr] at h
      cases res with
      | ok v1 =>
        simp only [andThen_ok] at h
        exact decl_iter_ok_undefined runF mutb rest _ s2 v h
      | thrown tv => simp [andThen] at h
      | crash => simp [andThen] at h
      | timeout => simp [andThen] at h
    | noneE =>
      simp only [decl_iter] at h
      exact decl_iter_ok_undefined runF mutb rest _ s2 v h

/-- C6: var, let and const declarations evaluate each initializer in order,
default an absent initializer to Null (not Undefined), create a binding of
the matching mutability (mutable for var/let, immutable for const) and
initialize it; var and let are interchangeable, and a successful
declaration expression always evaluates to Undefined. -/
theorem claim_C6 :
    (∀ (fuel : Nat) (vars : DL) (s : State),
      run (fuel+1) (.varDecl vars) s = run (fuel+1) (.letDecl vars) s)
    ∧ (∀ (fuel : Nat) (name : String) (e : Expr) (rest : DL) (v : Value)
        (s s1 : State), run fuel e s = (.ok v, s1) →
      run (fuel+1) (.varDecl (.cons name (.someE e) rest)) s
        = run (fuel+1) (.varDecl rest)
            (init_binding (create_binding s1 name true) name v))
    ∧ (∀ (fuel : Nat) (name : String) (rest : DL) (s : State),
      run (fuel+1) (.varDecl (.cons name .noneE rest)) s
        = run (fuel+1) (.varDecl rest)
            (init_binding (create_binding s name true) name .null))
    ∧ (∀ (fuel : Nat) (name : String) (e : Expr) (rest : DL) (v : Value)
        (s s1 : State), run fuel e s = (.ok v, s1) →
      run (fuel+1) (.constDecl (.cons name (.someE e) rest)) s
        = run (fuel+1) (.constDecl rest)
            (init_binding (create_binding s1 name false) name v))
    ∧ (∀ (fuel : Nat) (name : String) (rest : DL) (s : State),
      run (fuel+1) (.constDecl (.cons name .noneE rest)) s
        = run (fuel+1) (.constDecl rest)
            (init_binding (create_binding s name false) name .null))
    ∧ (∀ (fuel : Nat) (s : State),
      run (fuel+1) (.varDecl .nil) s = (.ok .undefined, s))
    ∧ (∀ (fuel : Nat) (s : State),
      run (fuel+1) (.constDecl .nil) s = (.ok .undefined, s))
    ∧ (∀ (fuel : Nat) (vars : DL) (s : State) (v : Value) (s2 : State),
      run (fuel+1) (.varDecl vars) s = (.ok v, s2) → v = .undefined)
    ∧ (∀ (fuel : Nat) (vars : DL) (s : State) (v : Value) (s2 : State),
      run (fuel+1) (.constDecl vars) s = (.ok v, s2) → v = .undefined) := by
  refine ⟨fun fuel vars s => rfl, ?_, fun fuel name rest s => rfl, ?_,
    fun fuel name rest s => rfl, fun fuel s => rfl, fun fuel s => rfl, ?_, ?_⟩
  · intro fuel name e rest v s s1 he
    have h0 : run (fuel+1) (.varDecl (.cons name (.someE e) rest)) s
        = andThen (run fuel e s) (fun v s1 =>
            decl_iter (run fuel) true rest
              (init_binding (create_binding s1 name true) name v)) := rfl
    rw [h0, he, andThen_ok]
    rfl
  · intro fuel name e rest v s s1 he
    have h0 : run (fuel+1) (.constDecl (.cons name (.someE e) rest)) s
        = andThen (run fuel e s) (fun v s1 =>
            decl_iter (run fuel) false rest
              (init_binding (create_binding s1 name false) name v)) := rfl
    rw [h0, he, andThen_ok]
    rfl
  · intro fuel vars s v s2 h
    exact decl_iter_ok_undefined (run fuel) true vars s s2 v h
  · intro fuel vars s v s2 h
    exact decl_iter_ok_undefined (run fuel) false vars s s2 v h

/-- C6 witness: `var x = 5` evaluates its initializer and creates the
mutable binding, and the empty declaration list yields Undefined. -/
theorem claim_C6_w :
    (run (1+1) (.varDecl (.cons "x" (.someE (.constE (.int 5))) .nil)) state0
      = run (1+1) (.varDecl .nil)
          (init_binding (create_binding state0 "x" true) "x" (.integer 5)))
    ∧ Value.undefined = Value.undefined :=
  ⟨claim_C6.2.1 1 "x" (.constE (.int 5)) .nil (.integer 5) state0 state0 rfl,
    claim_C6.2.2.2.2.2.2.2.1 0 .nil state0 .undefined state0 rfl⟩

/-- Assignment-target shapes other than an identifier or a constant-key
member access (the `_ => ()` arm of the source). -/
def assign_target_other : Expr → Bool
  | .localE _ => false
  | .getConstField _ _ => false
  | _ => true

/-- For any other target shape the assignment runs only its right-hand
side and yields the assigned value with no further state change. -/
theorem assign_other_eval (fuel : Nat) (tgt valE : Expr) (s : State)
    (hother : assign_target_other tgt = true) :
    run (fuel+1) (.assign tgt valE) s
      = andThen (run fuel valE s) (fun val s1 => (.ok val, s1)) := by
  cases tgt <;> first
    | rfl
    | exact absurd hother (by simp [assign_target_other])

/-- Lookup after a create-then-initialize pair on the same name finds the
initialized value with the requested mutability. -/
theorem frame_lookup_insert_set :
    ∀ (f : Frame) (name : String) (mutb : Bool) (v : Value),
      frame_lookup (set_binding_value
        (insert_binding f name ⟨mutb, .undefined⟩) name v) name = some ⟨mutb, v⟩ := by
  intro f name mutb v
  induction f with
  | nil => simp [insert_binding, set_binding_value, frame_lookup]
  | cons p rest ih =>
    rcases p with ⟨n, b⟩
    by_cases hn : n = name
    · subst hn
      simp [insert_binding, set_binding_value, frame_lookup]
    · simp only [insert_binding, if_neg hn, set_binding_value, frame_lookup]
      exact ih

/-- Reading a name back out of the state produced by create-then-initialize
in the current frame yields the stored value. -/
theorem get_binding_after_create_init (s : State) (name : String)
    (mutb : Bool) (v : Value) (hf : s.frames ≠ []) :
    get_binding_value (init_binding (create_binding s name mutb) name v) name
      = some v := by
  rcases s with ⟨frames, objs, funcs, natives, globalId⟩
  cases frames with
  | nil => exact absurd rfl hf
  | cons f rest =>
    simp only [create_binding, init_binding, get_binding_value, frames_lookup]
    rw [frame_lookup_insert_set]

/-- C7: an assignment evaluates its right-hand side first; an identifier
target then creates-or-overwrites a mutable binding in the current
environment without any failure path, a constant-key member target
evaluates the receiver and sets the property, and any other target shape
changes no state; in each case the assignment's result is the assigned
value, and an assigned identifier reads back as the assigned value. -/
theorem claim_C7 :
    (∀ (fuel : Nat) (name : String) (valE : Expr) (v : Value) (s s1 : State),
      run fuel valE s = (.ok v, s1) →
      run (fuel+1) (.assign (.localE name) valE) s
        = (.ok v, init_binding (create_mutable_binding s1 name) name v))
    ∧ (∀ (fuel : Nat) (objE : Expr) (field : String) (valE : Expr)
        (v ov : Value) (s s1 s2 : State),
      run fuel valE s = (.ok v, s1) →
      run fuel objE s1 = (.ok ov, s2) →
      run (fuel+1) (.assign (.getConstField objE field) valE) s
        = (.ok v, set_field s2 ov field v))
    ∧ (∀ (fuel : Nat) (tgt valE : Expr) (v : Value) (s s1 : State),
      assign_target_other tgt = true →
      run fuel valE s = (.ok v, s1) →
      run (fuel+1) (.assign tgt valE) s = (.ok v, s1))
    ∧ (∀ (fuel : Nat) (name : String) (valE : Expr) (v : Value) (s s1 : State),
      s1.frames ≠ [] →
      run fuel valE s = (.ok v, s1) →
      get_binding_value ((run (fuel+1) (.assign (.localE name) valE) s).2) name
        = some v) := by
  have hlocal : ∀ (fuel : Nat) (name : String) (valE : Expr) (v : Value)
      (s s1 : State), run fuel valE s = (.ok v, s1) →
      run (fuel+1) (.assign (.localE name) valE) s
        = (.ok v, init_binding (create_mutable_binding s1 name) name v) := by
    intro fuel name valE v s s1 he
    have h0 : run (fuel+1) (.assign (.localE name) valE) s
        = andThen (run fuel valE s) (fun val s1 =>
            (.ok val, init_binding (create_mutable_binding s1 name) name val)) := rfl
    rw [h0, he, andThen_ok]
  refine ⟨hlocal, ?_, ?_, ?_⟩
  · intro fuel objE field valE v ov s s1 s2 he ho
    have h0 : run (fuel+1) (.assign (.getConstField objE field) valE) s
        = andThen (run fuel valE s) (fun val s1 =>
            andThen (run fuel objE s1) (fun objV s2 =>
              (.ok val, set_field s2 objV field val))) := rfl
    rw [h0, he, andThen_ok, ho, andThen_ok]
  · intro fuel tgt valE v s s1 hother he
    rw [assign_other_eval fuel tgt valE s hother, he, andThen_ok]
  · intro fuel name valE v s s1 hf he
    rw [hlocal fuel name valE v s s1 he]
    exact get_binding_after_create_init s1 name true v hf

/-- C7 witness: assigning 7 to the unbound name `x` in the fresh state
stores the binding and the name reads back as 7. -/
theorem claim_C7_w :
    (run (1+1) (.assign (.localE "x") (.constE (.int 7))) state0
      = (.ok (.integer 7),
          init_binding (create_mutable_binding state0 "x") "x" (.integer 7)))
    ∧ get_binding_value
        ((run (1+1) (.assign (.localE "x") (.constE (.int 7))) state0).2) "x"
        = some (.integer 7) :=
  ⟨claim_C7.1 1 "x" (.constE (.int 7)) (.integer 7) state0 state0 rfl,
    claim_C7.2.2.2 1 "x" (.constE (.int 7)) (.integer 7) state0 state0
      (by simp [state0]) rfl⟩

/-- C8: a call that dispatches to a native callable evaluates the callee
expression twice: the resolution step produces the function value before
the arguments are evaluated, and the dispatch step then re-runs the callee
expression from the post-argument state to produce the callee-value
argument handed to the native implementation. -/
theorem claim_C8 (fuel : Nat) (callee : Expr) (args : EL) (thisV cv : Value)
    (vargs : List Value) (fid idx : Nat) (s s1 s2 s3 : State)
    (hres : resolve_callee (run fuel) callee s = (.ok (thisV, .function fid), s1))
    (hargs : run_args (run fuel) args s1 = (.ok vargs, s2))
    (hnat : s2.funcs[fid]? = some (.nativeFunc idx))
    (hcallee : run fuel callee s2 = (.ok cv, s3)) :
    run (fuel+1) (.call callee args) s = apply_native s3 idx thisV cv vargs := by
  have h0 : run (fuel+1) (.call callee args) s
      = andThen (resolve_callee (run fuel) callee s) (fun tf s1 =>
          andThen (run_args (run fuel) args s1) (fun vargs s2 =>
            match tf.2 with
            | .function fid =>
              match s2.funcs[fid]? with
              | some (.nativeFunc idx) =>
                andThen (run fuel callee s2) (fun cv s3 =>
                  apply_native s3 idx tf.1 cv vargs)
              | some (.regularFunc params body) =>
                andThen (bind_params params vargs (push_frame s2)) (fun _ s3 =>
                  run_then_pop (run fuel body s3))
              | none => (.crash, s2)
            | _ => (.thrown .undefined, s2))) := rfl
  rw [h0, hres, andThen_ok]
  simp only [hargs, andThen_ok, hnat, hcallee]

/-- A state with one native callable bound to `f` whose implementation
returns its callee-value argument. -/
def state_nat : State :=
  { frames := [[("f", ⟨true, .function 0⟩)]], objs := [⟨[], []⟩],
    funcs := [.nativeFunc 0], natives := [fun _ cv _ => .ok cv],
    globalId := 0 }

/-- C8 witness: calling the native `f` with no arguments dispatches with
the value of the second callee evaluation. -/
theorem claim_C8_w :
    run (3+1) (.call (.localE "f") .nil) state_nat
      = apply_native state_nat 0 (.object 0) (.function 0) [] :=
  claim_C8 3 (.localE "f") .nil (.object 0) (.function 0) [] 0 0
    state_nat state_nat state_nat state_nat rfl rfl rfl rfl

/-- The `is_function` discriminator: true exactly on Function values. -/
def is_function : Value → Bool
  | .function _ => true
  | _ => false

/-- The construction protocol applied to a non-Function value allocates
the instance, links its prototype, and returns success with Undefined. -/
theorem construct_new_object_non_function (runF : RunF) (func : Value)
    (vargs : List Value) (s : State) (hf : is_function func = false) :
    construct_new_object runF func vargs s = (.ok .undefined, construct_this s func) := by
  cases func <;> first
    | rfl
    | exact absurd hf (by simp [is_function])

/-- C10: a new-expression on a value that is not a Function returns
success with Undefined (after allocating the would-be instance), whereas a
call expression whose resolved callee is not a Function fails with a
thrown Undefined. -/
theorem claim_C10 :
    (∀ (fuel : Nat) (func : Value) (vargs : List Value) (s : State),
      is_function func = false →
      construct_new_object (run fuel) func vargs s
        = (.ok .undefined, construct_this s func))
    ∧ (∀ (fuel : Nat) (callee : Expr) (args : EL) (fv : Value)
        (vargs : List Value) (s s1 s2 : State),
      run fuel callee s = (.ok fv, s1) →
      run_args (run fuel) args s1 = (.ok vargs, s2) →
      is_function fv = false →
      run (fuel+1) (.constructE callee args) s
        = (.ok .undefined, construct_this s2 fv))
    ∧ (∀ (fuel : Nat) (callee : Expr) (args : EL) (thisV fv : Value)
        (vargs : List Value) (s s1 s2 : State),
      resolve_callee (run fuel) callee s = (.ok (thisV, fv), s1) →
      run_args (run fuel) args s1 = (.ok vargs, s2) →
      is_function fv = false →
      run (fuel+1) (.call callee args) s = (.thrown .undefined, s2)) := by
  refine ⟨?_, ?_, ?_⟩
  · intro fuel func vargs s hf
    exact construct_new_object_non_function (run fuel) func vargs s hf
  · intro fuel callee args fv vargs s s1 s2 hc hargs hf
    have h0 : run (fuel+1) (.constructE callee args) s
        = andThen (run fuel callee s) (fun func s1 =>
            andThen (run_args (run fuel) args s1) (fun vargs s2 =>
              construct_new_object (run fuel) func vargs s2)) := rfl
    rw [h0, hc, andThen_ok]
    simp only [hargs, andThen_ok]
    exact construct_new_object_non_function (run fuel) fv vargs s2 hf
  · intro fuel callee args thisV fv vargs s s1 s2 hres hargs hf
    have h0 : run (fuel+1) (.call callee args) s
        = andThen (resolve_callee (run fuel) callee s) (fun tf s1 =>
            andThen (run_args (run fuel) args s1) (fun vargs s2 =>
              match tf.2 with
              | .function fid =>
                match s2.funcs[fid]? with
                | some (.nativeFunc idx) =>
                  andThen (run fuel callee s2) (fun cv s3 =>
                    apply_native s3 idx tf.1 cv vargs)
                | some (.regularFunc params body) =>
                  andThen (bind_params params vargs (push_frame s2)) (fun _ s3 =>
                    run_then_pop (run fuel body s3))
                | none => (.crash, s2)
              | _ => (.thrown .undefined, s2))) := rfl
    rw [h0, hres, andThen_ok]
    simp only [hargs, andThen_ok]
    cases fv <;> first
      | rfl
      | exact absurd hf (by simp [is_function])

/-- C10 witness: `new 3()` succeeds with Undefined while `3()` throws
Undefined. -/
theorem claim_C10_w :
    (run (3+1) (.constructE (.constE (.int 3)) .nil) state0
      = (.ok .undefined, construct_this state0 (.integer 3)))
    ∧ (run (3+1) (.call (.constE (.int 3)) .nil) state0
      = (.thrown .undefined, state0)) :=
  ⟨claim_C10.2.1 3 (.constE (.int 3)) .nil (.integer 3) [] state0 state0 state0
      rfl rfl rfl,
    claim_C10.2.2 3 (.constE (.int 3)) .nil (.object 0) (.integer 3) []
      state0 state0 state0 rfl rfl rfl⟩

/-- A successful argument-list evaluation of a nonempty list yields a
nonempty value list. -/
theorem run_args_cons_shape (runF : RunF) (a : Expr) (rest : EL)
    (vs : List Value) (s s1 : State)
    (h : run_args runF (.cons a rest) s = (.ok vs, s1)) :
    ∃ (v : Value) (vs2 : List Value), vs = v :: vs2 := by
  simp only [run_args] at h
  rcases hr : runF a s with ⟨res, sa⟩
  simp only [hr] at h
  cases res with
  | ok v =>
    simp only [andThen_ok] at h
    rcases ha : run_args runF rest sa with ⟨ares, sb⟩
    simp only [ha] at h
    cases ares with
    | ok vs2 =>
      simp only [andThen_ok, Prod.mk.injEq, RRes.ok.injEq] at h
      exact ⟨v, vs2, h.1.symm⟩
    | thrown tv => simp [andThen] at h
    | crash => simp [andThen] at h
    | timeout => simp [andThen] at h
  | thrown tv => simp [andThen] at h
  | crash => simp [andThen] at h
  | timeout => simp [andThen] at h

/-- When every expression of a block succeeds, the block loop returns the
value of its final iteration: the accumulator is overwritten at the last
element (and possibly at earlier elements structurally equal to it), so
the result is the last of the collected values. -/
theorem block_iter_values (runF : RunF) (lastE : Expr) :
    (es : EL) → (vs : List Value) → (obj : Value) → (s s1 : State) →
    (es = .nil ∨ es.lastQ = some lastE) →
    run_args runF es s = (.ok vs, s1) →
    block_iter runF lastE es obj s = (.ok (vs.getLastD obj), s1)
  | .nil, vs, obj, s, s1, _, h => by
    simp only [run_args, Prod.mk.injEq, RRes.ok.injEq] at h
    obtain ⟨hv, hs⟩ := h
    subst hs
    simp [block_iter, ← hv]
  | .cons e rest, vs, obj, s, s1, hlast, h => by
    simp only [run_args] at h
    rcases hr : runF e s with ⟨res, sa⟩
    simp only [hr] at h
    cases res with
    | ok v =>
      simp only [andThen_ok] at h
      rcases ha : run_args runF rest sa with ⟨ares, sb⟩
      simp only [ha] at h
      cases ares with
      | ok vs2 =>
        simp only [andThen_ok, Prod.mk.injEq, RRes.ok.injEq] at h
        obtain ⟨hv, hs⟩ := h
        rw [← hv, ← hs]
        simp only [block_iter, hr, andThen_ok]
        cases rest with
        | nil =>
          have he : e = lastE := by
            rcases hlast with hlast | hlast
            · exact absurd hlast (by simp)
            · simp only [EL.lastQ, Option.some.injEq] at hlast
              exact hlast
          simp only [run_args, Prod.mk.injEq, RRes.ok.injEq] at ha
          obtain ⟨hv2, hs2⟩ := ha
          rw [← hv2, ← hs2, he, if_pos rfl]
          simp [block_iter]
        | cons e2 r2 =>
          have hlast2 : EL.cons e2 r2 = EL.nil ∨ (EL.cons e2 r2).lastQ = some lastE := by
            rcases hlast with hlast | hlast
            · exact absurd hlast (by simp)
            · exact Or.inr hlast
          have ih := block_iter_values runF lastE (.cons e2 r2) vs2
            (if e = lastE then v else obj) sa sb hlast2 ha
          rw [ih]
          obtain ⟨v2, vs3, hshape⟩ := run_args_cons_shape runF e2 r2 vs2 sa sb ha
          rw [hshape]
          rw [List.getLastD_cons, List.getLastD_cons, List.getLastD_cons]
      | thrown tv => simp [andThen] at h
      | crash => simp [andThen] at h
      | timeout => simp [andThen] at h
    | thrown tv => simp [andThen] at h
    | crash => simp [andThen] at h
    | timeout => simp [andThen] at h

/-- When a prefix of the block succeeds and the next expression throws,
the block loop stops with exactly that thrown value and state, touching
none of the remaining expressions. -/
theorem block_iter_prefix_thrown (runF : RunF) (lastE : Expr) :
    (pre : EL) → (vs : List Value) → (ek : Expr) → (post : EL) → (tv : Value) →
    (obj : Value) → (s s1 s2 : State) →
    run_args runF pre s = (.ok vs, s1) →
    runF ek s1 = (.thrown tv, s2) →
    block_iter runF lastE (EL.append pre (.cons ek post)) obj s = (.thrown tv, s2)
  | .nil, vs, ek, post, tv, obj, s, s1, s2, hpre, hek => by
    simp only [run_args, Prod.mk.injEq, RRes.ok.injEq] at hpre
    obtain ⟨_, hs⟩ := hpre
    subst hs
    simp [EL.append, block_iter, hek, andThen]
  | .cons e rest, vs, ek, post, tv, obj, s, s1, s2, hpre, hek => by
    simp only [run_args] at hpre
    rcases hr : runF e s with ⟨res, sa⟩
    simp only [hr] at hpre
    cases res with
    | ok v =>
      simp only [andThen_ok] at hpre
      rcases ha : run_args runF rest sa with ⟨ares, sb⟩
      simp only [ha] at hpre
      cases ares with
      | ok vs2 =>
        simp only [andThen_ok, Prod.mk.injEq, RRes.ok.injEq] at hpre
        obtain ⟨_, hs⟩ := hpre
        subst hs
        simp only [EL.append, block_iter, hr, andThen_ok]
        exact block_iter_prefix_thrown runF lastE rest vs2 ek post tv
          (if e = lastE then v else obj) sa sb s2 ha hek
      | thrown t2 => simp [andThen] at hpre
      | crash => simp [andThen] at hpre
      | timeout => simp [andThen] at hpre
    | thrown t2 => simp [andThen] at hpre
    | crash => simp [andThen] at hpre
    | timeout => simp [andThen] at hpre

/-- A nonempty expression list has a last element. -/
theorem EL.lastQ_cons_isSome :
    (e : Expr) → (rest : EL) → ∃ l, (EL.cons e rest).lastQ = some l
  | e, .nil => ⟨e, rfl⟩
  | _, .cons e2 r2 =>
    match EL.lastQ_cons_isSome e2 r2 with
    | ⟨l, h⟩ => ⟨l, h⟩

/-- Appending a nonempty tail to any list gives a cons-shaped list. -/
theorem EL.append_cons_shape :
    (pre : EL) → (ek : Expr) → (post : EL) →
    ∃ (e : Expr) (rest : EL), EL.append pre (.cons ek post) = .cons e rest
  | .nil, ek, post => ⟨ek, post, rfl⟩
  | .cons x xs, ek, post => ⟨x, EL.append xs (.cons ek post), rfl⟩

/-- C5: a block whose sub-expressions all succeed evaluates to the value
of its final sub-expression; a block whose sub-expression at position k
throws (after a succeeding prefix) fails with exactly that thrown value
and the state at the failure, independently of all later sub-expressions,
which are never evaluated. -/
theorem claim_C5 :
    (∀ (fuel : Nat) (es : EL) (lastE : Expr) (vs : List Value) (vlast : Value)
      (s s1 : State),
      es.lastQ = some lastE →
      run_args (run fuel) es s = (.ok vs, s1) →
      vs.getLast? = some vlast →
      run (fuel+1) (.block es) s = (.ok vlast, s1))
    ∧ (∀ (fuel : Nat) (pre : EL) (ek : Expr) (post : EL) (vs : List Value)
        (tv : Value) (s s1 s2 : State),
      run_args (run fuel) pre s = (.ok vs, s1) →
      run fuel ek s1 = (.thrown tv, s2) →
      run (fuel+1) (.block (EL.append pre (.cons ek post))) s = (.thrown tv, s2)) := by
  constructor
  · intro fuel es lastE vs vlast s s1 hlq hargs hlastv
    have h0 : run (fuel+1) (.block es) s
        = (match es.lastQ with
           | none => (.ok .null, s)
           | some lastE => block_iter (run fuel) lastE es .null s) := rfl
    rw [h0]
    simp only [hlq]
    rw [block_iter_values (run fuel) lastE es vs .null s s1 (Or.inr hlq) hargs]
    rw [List.getLastD_eq_getLast?, hlastv]
    rfl
  · intro fuel pre ek post vs tv s s1 s2 hpre hek
    obtain ⟨e, rest, hshape⟩ := EL.append_cons_shape pre ek post
    have hex : ∃ l, (EL.append pre (.cons ek post)).lastQ = some l := by
      rw [hshape]
      exact EL.lastQ_cons_isSome e rest
    obtain ⟨l, hl⟩ := hex
    have h0 : run (fuel+1) (.block (EL.append pre (.cons ek post))) s
        = (match (EL.append pre (.cons ek post)).lastQ with
           | none => (.ok .null, s)
           | some lastE => block_iter (run fuel) lastE (EL.append pre (.cons ek post)) .null s) := rfl
    rw [h0]
    simp only [hl]
    exact block_iter_prefix_thrown (run fuel) l pre vs ek post tv .null s s1 s2 hpre hek

/-- C5 witness: the block `[1, 2]` evaluates to 2, and the block
`[1, throw 5, 9]` throws 5 without evaluating the trailing literal. -/
theorem claim_C5_w :
    (run (1+1) (.block (.cons (.constE (.int 1)) (.cons (.constE (.int 2)) .nil)))
        state0 = (.ok (.integer 2), state0))
    ∧ (run (2+1) (.block (EL.append (.cons (.constE (.int 1)) .nil)
          (.cons (.throwE (.constE (.int 5))) (.cons (.constE (.int 9)) .nil))))
        state0 = (.thrown (.integer 5), state0)) :=
  ⟨claim_C5.1 1 (.cons (.constE (.int 1)) (.cons (.constE (.int 2)) .nil))
      (.constE (.int 2)) [.integer 1, .integer 2] (.integer 2) state0 state0
      rfl rfl rfl,
    claim_C5.2 2 (.cons (.constE (.int 1)) .nil) (.throwE (.constE (.int 5)))
      (.cons (.constE (.int 9)) .nil) [.integer 1] (.integer 5)
      state0 state0 state0 rfl rfl⟩

end Boa
